import Mathlib

/-!
Verification of the AI request-orchestration layer of the FindLead
intelligence platform: the LLM provider router (`src/services/llm_router.py`),
the shared Groq rate limiter (`src/utils/rate_limiter.py`), the response
cache (`src/utils/api_optimizer.py`) and the sentiment analysis service
(`src/services/analysis_service.py`).

Modelling conventions:
* Time is measured in whole seconds (`Nat`); a calendar day lasts 86400
  seconds, so `datetime.date()` comparison becomes comparison of `t / 86400`.
  `record_call` re-reads the clock one instruction after the admission check;
  the model uses the admission-check instant for the recorded timestamp.
* Python exceptions are modelled with `Except`/explicit result constructors.
* JSON values are modelled by the inductive `JValue`; `json.loads` is a
  recursive-descent parser over the characters of the input string.
* The recursive sleep-and-recheck loop of `wait_if_needed` is modelled with
  explicit fuel; every theorem about it quantifies over the fuel, and the
  out-of-fuel case is `none`, distinct from every real outcome.
-/

set_option autoImplicit false

namespace FindLead

/-! ## JSON values (the results of Python `json.loads`) -/

/-- Values produced by Python's `json` module.  Numbers are represented in
decimal scientific form `m * 10 ^ e` (`jnum m e`), covering both `int` and
`float` results of the parser. -/
inductive JValue where
  | jnull : JValue
  | jbool : Bool → JValue
  | jnum : Int → Int → JValue
  | jstr : String → JValue
  | jarr : List JValue → JValue
  | jobj : List (String × JValue) → JValue

/-- Integer JSON number, as produced by `json.loads` for an int literal. -/
def JValue.int (n : Int) : JValue := .jnum n 0

/-! ## Rate limiter (`src/utils/rate_limiter.py`, class `GroqRateLimiter`) -/

/-- State of a `GroqRateLimiter` instance: configured per-minute and per-day
quotas, recorded call timestamps, the daily counter and the day anchor of the
last daily reset (`rate_limiter.py` lines 10-20). -/
structure GroqRateLimiter where
  calls_per_minute : Nat
  calls_per_day : Nat
  call_times : List Nat
  daily_calls : Nat
  last_reset : Nat
deriving DecidableEq

/-- Freshly constructed limiter: `call_times = []`, `daily_calls = 0`,
`last_reset = now` (`__init__`, lines 15-19). -/
def GroqRateLimiter.init (cpm cpd now : Nat) : GroqRateLimiter :=
  ⟨cpm, cpd, [], 0, now⟩

/-- Calendar day of a time point, modelling `datetime.date()`. -/
def dayOf (t : Nat) : Nat := t / 86400

/-- Drop timestamps at least 60 seconds old:
`[t for t in call_times if t > now - timedelta(minutes=1)]` (line 38).
Over integer seconds, `t > now - 60` is exactly `t + 60 > now`. -/
def pruneTimes (times : List Nat) (now : Nat) : List Nat :=
  times.filter (fun t => decide (t + 60 > now))

/-- Semantic content of the outcome produced by `can_make_call`.
`dailyLimit n` stands for the f-string `"Daily limit reached ({n} calls)"`,
`waitFor w` for `"Rate limit reached. Wait {w:.1f} seconds"` and `valueError`
for the `ValueError` that `min([])` raises when `calls_per_minute = 0`.
`wait_if_needed` tests `"Wait" in message` and re-parses the wait from the
message with `float(message.split()[-2])`; with whole-second waits that
format/parse round trip is exact, so the model carries the wait directly. -/
inductive CheckMsg where
  | ok
  | dailyLimit (limit : Nat)
  | waitFor (w : Nat)
  | valueError
deriving DecidableEq

/-- Message text, as built by the f-strings of `can_make_call` (lines 34, 44);
whole-second waits render as `{w:.1f} = "w.0"`. -/
def CheckMsg.render : CheckMsg → String
  | .ok => "OK"
  | .dailyLimit n => "Daily limit reached (" ++ toString n ++ " calls)"
  | .waitFor w => "Rate limit reached. Wait " ++ toString w ++ ".0 seconds"
  | .valueError => "min() arg is an empty sequence"

/-- Reset the daily counter on the first check of a new day
(`can_make_call`, lines 28-30). -/
def GroqRateLimiter.resetDaily (rl : GroqRateLimiter) (now : Nat) : GroqRateLimiter :=
  if dayOf rl.last_reset < dayOf now then
    { rl with daily_calls := 0, last_reset := now }
  else rl

/-- Model of `can_make_call` (lines 22-46): reset the daily counter on a new
day, fail on the daily quota, prune the minute window, fail with the computed
wait when the window is full, otherwise admit.  The returned state is the
mutated `self`.  The body runs under `self.lock`, hence in one atomic step. -/
def GroqRateLimiter.can_make_call (rl : GroqRateLimiter) (now : Nat) :
    (Bool × CheckMsg) × GroqRateLimiter :=
  let rl1 := rl.resetDaily now
  if rl1.calls_per_day ≤ rl1.daily_calls then
    ((false, .dailyLimit rl1.calls_per_day), rl1)
  else
    let rl2 := { rl1 with call_times := pruneTimes rl1.call_times now }
    if rl2.calls_per_minute ≤ rl2.call_times.length then
      match rl2.call_times.min? with
      | some oldest => ((false, .waitFor (oldest + 60 - now)), rl2)
      | none => ((false, .valueError), rl2)
    else
      ((true, .ok), rl2)

/-- Model of `record_call` (lines 48-53): append the current time and bump the
daily counter.  The body runs under `self.lock`, hence in one atomic step. -/
def GroqRateLimiter.record_call (rl : GroqRateLimiter) (now : Nat) : GroqRateLimiter :=
  { rl with call_times := rl.call_times ++ [now], daily_calls := rl.daily_calls + 1 }

/-- Outcome of one `wait_if_needed` call: either the call was admitted
(returning the state after `record_call` and the admission time, which is the
entry time plus all sleeps), or an exception propagated (`Exception` for the
daily quota, `ValueError` for `min([])`), carrying the state and raise time. -/
inductive WaitResult where
  | admitted (rl : GroqRateLimiter) (finish : Nat)
  | raised (msg : CheckMsg) (rl : GroqRateLimiter) (atTime : Nat)
deriving DecidableEq

/-- Model of `wait_if_needed` (lines 55-68), sequential semantics: check; if
admitted record the call; if the message carries a wait (`"Wait" in message`)
sleep `wait + 1` seconds and recurse at the advanced clock; otherwise raise.
The recursion is driven by explicit fuel (`none` = out of fuel); the
theorems hold for every fuel value. -/
def GroqRateLimiter.wait_if_needed :
    Nat → GroqRateLimiter → Nat → Option WaitResult
  | 0, _, _ => none
  | fuel + 1, rl, now =>
    match rl.can_make_call now with
    | ((true, _), rl1) => some (.admitted (rl1.record_call now) now)
    | ((false, .waitFor w), rl1) =>
        GroqRateLimiter.wait_if_needed fuel rl1 (now + w + 1)
    | ((false, m), rl1) => some (.raised m rl1 now)

/-- Sequential trace of `wait_if_needed` calls against one shared limiter:
each list entry is the delay between the end of the previous call and the
start of the next; raised attempts leave their (pruned/reset) state behind
and the trace continues. -/
def runSeq (fuel : Nat) :
    GroqRateLimiter → Nat → List Nat → Option (GroqRateLimiter × Nat)
  | rl, now, [] => some (rl, now)
  | rl, now, d :: ds =>
    match GroqRateLimiter.wait_if_needed fuel rl (now + d) with
    | some (.admitted rl' fin) => runSeq fuel rl' fin ds
    | some (.raised _ rl' t) => runSeq fuel rl' t ds
    | none => none

/-- Number of recorded timestamps inside the trailing 60-second window that
ends at `w`, i.e. timestamps `t` with `w - 60 < t ≤ w`. -/
def windowCount (times : List Nat) (w : Nat) : Nat :=
  (times.filter (fun t => decide (t + 60 > w) && decide (t ≤ w))).length

/-- Invariant carried by sequential executions of the limiter: the
configured per-minute quota is `cpm` and every trailing 60-second window
holds at most `cpm` recorded timestamps. -/
def RLInv (cpm : Nat) (rl : GroqRateLimiter) : Prop :=
  rl.calls_per_minute = cpm ∧ ∀ w, windowCount rl.call_times w ≤ cpm

/-! ## Concurrent interleavings of the rate limiter

In `rate_limiter.py` the lock is acquired separately inside `can_make_call`
(line 24) and inside `record_call` (line 50); `wait_if_needed` holds no lock
of its own.  Each lock-guarded body is therefore one atomic step, and steps
of concurrent callers may interleave between a caller's check and its record.
The model below runs two callers, each executing the no-wait admission path
of `wait_if_needed` (check, then record if admitted), under an arbitrary
schedule. -/

/-- Program counter of one caller inside `wait_if_needed`'s admission path. -/
inductive ThreadState where
  | toCheck
  | toRecord
  | denied (msg : CheckMsg)
  | done
deriving DecidableEq

/-- One atomic step of a caller at time `now`: its `can_make_call` body, or
its `record_call` body once admitted. -/
def threadStep (rl : GroqRateLimiter) (ts : ThreadState) (now : Nat) :
    GroqRateLimiter × ThreadState :=
  match ts with
  | .toCheck =>
    match rl.can_make_call now with
    | ((true, _), rl1) => (rl1, .toRecord)
    | ((false, m), rl1) => (rl1, .denied m)
  | .toRecord => (rl.record_call now, .done)
  | s => (rl, s)

/-- Run a schedule over two callers A and B sharing the limiter; `true`
schedules a step of A, `false` a step of B.  Both callers run at time `now`. -/
def runSched (rl : GroqRateLimiter) (tsA tsB : ThreadState) (now : Nat) :
    List Bool → GroqRateLimiter × ThreadState × ThreadState
  | [] => (rl, tsA, tsB)
  | true :: rest =>
    runSched (threadStep rl tsA now).1 (threadStep rl tsA now).2 tsB now rest
  | false :: rest =>
    runSched (threadStep rl tsB now).1 tsA (threadStep rl tsB now).2 now rest

/-! ## Provider router (`src/services/llm_router.py`) -/

/-- Failure taxonomy of a provider `complete` call (`llm_router.py` lines
16-21 and the three `except` arms of `LLMRouter.complete`, lines 202-211):
`ProviderRateLimitError`, `ProviderError`, and any other `Exception`. -/
inductive PError where
  | rateLimit (msg : String)
  | providerFailed (msg : String)
  | other (msg : String)
deriving DecidableEq

/-- Text of the exception, as interpolated by `f"{provider.name}: {exc}"`. -/
def PError.text : PError → String
  | .rateLimit m => m
  | .providerFailed m => m
  | .other m => m

/-- An LLM provider: its configured name and priority
(`ProviderConfig`, lines 55-58) and the behaviour of its `complete` method on
a prompt.  The remaining keyword arguments of `complete` do not influence the
routing logic and are folded into `behavior`. -/
structure Provider where
  name : String
  priority : Int
  behavior : String → Except PError JValue

/-- Insert a provider into an already priority-sorted list, before the first
provider of greater-or-equal priority. -/
def insertByPriority (p : Provider) : List Provider → List Provider
  | [] => [p]
  | q :: qs =>
    if q.priority < p.priority then q :: insertByPriority p qs
    else p :: q :: qs

/-- Stable sort by ascending priority, modelling
`sorted(provider_list, key=lambda p: p.config.priority)` (lines 157-159).
Python's `sorted` is a stable sort; a stable sort by a fixed key is uniquely
determined, so this insertion sort computes the same list. -/
def sortByPriority : List Provider → List Provider
  | [] => []
  | p :: ps => insertByPriority p (sortByPriority ps)

/-- Router state: the priority-ordered provider list (`__init__`, 145-159). -/
structure LLMRouter where
  providers : List Provider

/-- Model of `LLMRouter.__init__` with an explicit provider list: an empty
list is a construction-time `RuntimeError` (lines 151-154), otherwise the
providers are sorted ascending by priority (lines 157-159). -/
def LLMRouter.init (ps : List Provider) : Except String LLMRouter :=
  if ps.isEmpty then
    .error "No LLM provider configured. Set GROQ_API_KEY in your environment variables."
  else
    .ok ⟨sortByPriority ps⟩

/-- Python `last_error or default`: `None` and the empty string are falsy. -/
def pyOrDefault (s : Option String) (d : String) : String :=
  match s with
  | none => d
  | some s => if s = "" then d else s

/-- Loop body of `LLMRouter.complete` (lines 184-213): try each provider in
order; the first success returns its result, every failure overwrites
`last_error` with `f"{provider.config.name}: {exc}"`; when the providers are
exhausted raise `RuntimeError(last_error or "All LLM providers failed")`.
The second component exposes the local variable `last_error` at the moment
the function returns or raises.  (`time.sleep(retry_delay)` after a rate
limit only delays the loop and is invisible to the returned value.) -/
def completeAux (prompt : String) :
    List Provider → Option String → Except String JValue × Option String
  | [], last => (.error (pyOrDefault last "All LLM providers failed"), last)
  | p :: ps, last =>
    match p.behavior prompt with
    | .ok v => (.ok v, last)
    | .error e => completeAux prompt ps (some (p.name ++ ": " ++ e.text))

/-- Model of `LLMRouter.complete`: the value returned to (or the
`RuntimeError` raised at) the caller. -/
def LLMRouter.complete (r : LLMRouter) (prompt : String) : Except String JValue :=
  (completeAux prompt r.providers none).1

/-! ## Python `json.loads` (recursive-descent model)

The parser follows the grammar accepted by Python's `json` module in its
default configuration: a JSON value with `, \t, \n, \r` whitespace, strict
strings (raw control characters rejected, `\uXXXX` escapes), numbers
`-?(0|[1-9][0-9]*)(.[0-9]+)?([eE][+-]?[0-9]+)?`, and the literals
`true`/`false`/`null`.  (The non-standard literals `NaN`/`Infinity`, and the
pairing of `\u` surrogate escapes, are outside the model; no claim involves
them.)  Nesting is driven by explicit fuel; `input length + 1` is always
enough fuel since every nesting step consumes at least one character. -/

/-- Opening and closing curly-brace characters. -/
def lbraceC : Char := Char.ofNat 123

def rbraceC : Char := Char.ofNat 125

/-- Backtick character. -/
def btickC : Char := Char.ofNat 96

/-- JSON whitespace accepted between tokens (Python `json` scanner). -/
def isJsonWS (c : Char) : Bool :=
  c = ' ' || c = '\t' || c = '\n' || c = '\r'

/-- Whitespace stripped by Python `str.strip()` (ASCII range). -/
def isPyWS (c : Char) : Bool :=
  c = ' ' || c = '\t' || c = '\n' || c = '\r' || c = Char.ofNat 11 || c = Char.ofNat 12

/-- Model of `str.strip()`. -/
def pyStrip (s : String) : String :=
  String.mk (((s.toList.dropWhile isPyWS).reverse.dropWhile isPyWS).reverse)

/-- Drop an expected literal prefix. -/
def stripPref : List Char → List Char → Option (List Char)
  | [], cs => some cs
  | _ :: _, [] => none
  | p :: ps, c :: cs => if c = p then stripPref ps cs else none

/-- Hexadecimal digit value. -/
def hexVal (c : Char) : Option Nat :=
  if '0' ≤ c ∧ c ≤ '9' then some (c.toNat - 48)
  else if 'a' ≤ c ∧ c ≤ 'f' then some (c.toNat - 87)
  else if 'A' ≤ c ∧ c ≤ 'F' then some (c.toNat - 55)
  else none

/-- String body parser (after the opening quote), strict mode: raw control
characters are rejected, the eight simple escapes and `\uXXXX` accepted. -/
def parseJString : List Char → List Char → Option (String × List Char)
  | _, [] => none
  | acc, c :: rest =>
    if c = '"' then some (String.mk acc.reverse, rest)
    else if c = '\\' then
      match rest with
      | [] => none
      | d :: r2 =>
        if d = '"' then parseJString ('"' :: acc) r2
        else if d = '\\' then parseJString ('\\' :: acc) r2
        else if d = '/' then parseJString ('/' :: acc) r2
        else if d = 'b' then parseJString (Char.ofNat 8 :: acc) r2
        else if d = 'f' then parseJString (Char.ofNat 12 :: acc) r2
        else if d = 'n' then parseJString ('\n' :: acc) r2
        else if d = 'r' then parseJString ('\r' :: acc) r2
        else if d = 't' then parseJString ('\t' :: acc) r2
        else if d = 'u' then
          match r2 with
          | h1 :: h2 :: h3 :: h4 :: r3 =>
            match hexVal h1, hexVal h2, hexVal h3, hexVal h4 with
            | some a, some b, some c3, some d4 =>
                parseJString (Char.ofNat (((a * 16 + b) * 16 + c3) * 16 + d4) :: acc) r3
            | _, _, _, _ => none
          | _ => none
        else none
    else if c.toNat < 32 then none
    else parseJString (c :: acc) rest

/-- Digit run to the number it denotes. -/
def digitsToNat (ds : List Char) : Nat :=
  ds.foldl (fun n c => n * 10 + (c.toNat - 48)) 0

/-- Number parser, following Python's `NUMBER_RE`.  The result is
`jnum m e` denoting `m * 10 ^ e`; an integer literal gets `e = 0`. -/
def parseNumber (cs : List Char) : Option (JValue × List Char) :=
  let signed : Bool × List Char :=
    match cs with
    | c :: r => if c = '-' then (true, r) else (false, cs)
    | [] => (false, cs)
  match signed.2 with
  | [] => none
  | c :: _ =>
    if c.isDigit then
      let ip : List Char × List Char :=
        if c = '0' then ([c], signed.2.tail)
        else (signed.2.takeWhile Char.isDigit, signed.2.dropWhile Char.isDigit)
      let fp : List Char × List Char :=
        match ip.2 with
        | d :: r2 =>
          if d = '.' ∧ (r2.takeWhile Char.isDigit) ≠ [] then
            (r2.takeWhile Char.isDigit, r2.dropWhile Char.isDigit)
          else ([], ip.2)
        | [] => ([], ip.2)
      let ex : Option Int × List Char :=
        match fp.2 with
        | d :: r2 =>
          if d = 'e' ∨ d = 'E' then
            let se : Bool × List Char :=
              match r2 with
              | e :: r3 => if e = '-' then (true, r3) else if e = '+' then (false, r3) else (false, r2)
              | [] => (false, r2)
            let ds := se.1
            match se.2.takeWhile Char.isDigit with
            | [] => (none, fp.2)
            | eds =>
              let ev : Int := Int.ofNat (digitsToNat eds)
              (some (if ds then -ev else ev), se.2.dropWhile Char.isDigit)
          else (none, fp.2)
        | [] => (none, fp.2)
      let mant : Int := Int.ofNat (digitsToNat (ip.1 ++ fp.1))
      let mant := if signed.1 then -mant else mant
      let expv : Int := (ex.1.getD 0) - Int.ofNat fp.1.length
      some (.jnum mant expv, ex.2)
    else none

/-- Element list of a JSON array after the first element's start; `pv`
parses one value.  Fueled by the element count (each element consumes at
least one character). -/
def parseItems (pv : List Char → Option (JValue × List Char)) :
    Nat → List Char → Option (List JValue × List Char)
  | 0, _ => none
  | fuel + 1, cs =>
    match pv cs with
    | none => none
    | some (v, rest) =>
      match rest.dropWhile isJsonWS with
      | [] => none
      | c :: rest2 =>
        if c = ',' then
          match parseItems pv fuel (rest2.dropWhile isJsonWS) with
          | some (vs, r) => some (v :: vs, r)
          | none => none
        else if c = ']' then some ([v], rest2)
        else none

/-- Member list of a JSON object positioned at a key's opening quote. -/
def parseMembers (pv : List Char → Option (JValue × List Char)) :
    Nat → List Char → Option (List (String × JValue) × List Char)
  | 0, _ => none
  | fuel + 1, cs =>
    match cs with
    | [] => none
    | c :: rest =>
      if c = '"' then
        match parseJString [] rest with
        | none => none
        | some (k, r1) =>
          match r1.dropWhile isJsonWS with
          | [] => none
          | d :: r3 =>
            if d = ':' then
              match pv (r3.dropWhile isJsonWS) with
              | none => none
              | some (v, r5) =>
                match r5.dropWhile isJsonWS with
                | [] => none
                | e :: r7 =>
                  if e = ',' then
                    match parseMembers pv fuel (r7.dropWhile isJsonWS) with
                    | some (ms, r9) => some ((k, v) :: ms, r9)
                    | none => none
                  else if e = rbraceC then some ([(k, v)], r7)
                  else none
            else none
      else none

/-- JSON value parser; the input must start at the first character of the
value (callers skip whitespace). -/
def parseValue : Nat → List Char → Option (JValue × List Char)
  | 0, _ => none
  | fuel + 1, cs =>
    match cs with
    | [] => none
    | c :: rest =>
      if c = '"' then
        match parseJString [] rest with
        | some (s, r) => some (.jstr s, r)
        | none => none
      else if c = '[' then
        match rest.dropWhile isJsonWS with
        | d :: rest2 =>
          if d = ']' then some (.jarr [], rest2)
          else
            match parseItems (parseValue fuel) fuel (rest.dropWhile isJsonWS) with
            | some (vs, r) => some (.jarr vs, r)
            | none => none
        | [] => none
      else if c = lbraceC then
        match rest.dropWhile isJsonWS with
        | d :: rest2 =>
          if d = rbraceC then some (.jobj [], rest2)
          else
            match parseMembers (parseValue fuel) fuel (rest.dropWhile isJsonWS) with
            | some (ms, r) => some (.jobj ms, r)
            | none => none
        | [] => none
      else
        match stripPref ['t', 'r', 'u', 'e'] cs with
        | some r => some (.jbool true, r)
        | none =>
          match stripPref ['f', 'a', 'l', 's', 'e'] cs with
          | some r => some (.jbool false, r)
          | none =>
            match stripPref ['n', 'u', 'l', 'l'] cs with
            | some r => some (.jnull, r)
            | none => parseNumber cs

/-- Model of `json.loads`: parse one value surrounded by whitespace;
anything else (including trailing data) raises `JSONDecodeError`, i.e.
`none`. -/
def json_loads (s : String) : Option JValue :=
  let cs := s.toList.dropWhile isJsonWS
  match parseValue (cs.length + 1) cs with
  | some (v, rest) => if rest.dropWhile isJsonWS = [] then some v else none
  | none => none

/-! ## Fenced-block and brace regex fallbacks of `_extract_json`

`_extract_json` (llm_router.py lines 24-52) applies `re.findall` with three
patterns over the stripped content, with `re.DOTALL | re.MULTILINE`.  The
scanners below implement the exact leftmost, non-overlapping match semantics
of each pattern; each one's structure is forced (no true backtracking is
reachable), as explained per function. -/

/-- Tail of fence patterns 1 and 2 after the group's closing brace:
`\s*` + three backticks.  Whitespace cannot be a backtick, so the greedy
`\s*` is forced to skip the maximal whitespace run. -/
def wsThenFence (cs : List Char) : Option (List Char) :=
  stripPref [btickC, btickC, btickC] (cs.dropWhile isJsonWS)

/-- Lazy body scan for the group `(\{.*?\})` followed by `\s*` and a fence.
The lazy `.*?` grows one candidate closing brace at a time, exactly Python's
backtracking order. -/
def lazyToCloseFence : List Char → List Char → Option (List Char × List Char)
  | _, [] => none
  | acc, c :: rest =>
    if c = rbraceC then
      match wsThenFence rest with
      | some after => some ((c :: acc).reverse, after)
      | none => lazyToCloseFence (c :: acc) rest
    else lazyToCloseFence (c :: acc) rest

/-- Anchored match of fence pattern `labelled-fence \s* (\{.*?\}) \s* fence`
at the head of `cs`; returns the group and the remainder after the whole
match.  The `\s*` before the group is forced maximal because the next
pattern character is an opening brace. -/
def matchFenceAt (label : List Char) (cs : List Char) : Option (List Char × List Char) :=
  match stripPref ([btickC, btickC, btickC] ++ label) cs with
  | none => none
  | some cs1 =>
    match cs1.dropWhile isJsonWS with
    | [] => none
    | c :: cs3 =>
      if c = lbraceC then
        match lazyToCloseFence [] cs3 with
        | some (body, after) => some (lbraceC :: body, after)
        | none => none
      else none

/-- Model of `re.findall(fence-pattern, content)`: scan left to right,
collect non-overlapping matches, resume after each whole match.  Fuel is the
input length plus one (each step consumes at least one character). -/
def findFences (label : List Char) : Nat → List Char → List (List Char)
  | 0, _ => []
  | fuel + 1, cs =>
    match matchFenceAt label cs with
    | some (g, after) => g :: findFences label fuel after
    | none =>
      match cs with
      | [] => []
      | _ :: rest => findFences label fuel rest

/-- Maximal run of non-brace characters, for the `[^{}]*` pieces of pattern
3 (greedy and forced, since the following pattern character is a brace). -/
def takeNonBrace (cs : List Char) : List Char × List Char :=
  (cs.takeWhile (fun c => decide (c ≠ lbraceC) && decide (c ≠ rbraceC)),
   cs.dropWhile (fun c => decide (c ≠ lbraceC) && decide (c ≠ rbraceC)))

/-- Iterations `(?:\{[^{}]*\}[^{}]*)*` followed by the closing `\}` of
pattern 3, starting after the outer opening brace and its non-brace run.
If an iteration's inner brace pair does not close immediately (deeper
nesting), no shorter iteration count can succeed — the next character is an
opening brace where `\}` would be required — so the whole match fails,
exactly as the regex engine concludes. -/
def braceIters : Nat → List Char → List Char → Option (List Char × List Char)
  | 0, _, _ => none
  | _, _, [] => none
  | fuel + 1, acc, c :: rest =>
    if c = lbraceC then
      match takeNonBrace rest with
      | (a, d :: rest2) =>
        if d = rbraceC then
          match takeNonBrace rest2 with
          | (a2, rest3) => braceIters fuel (a2.reverse ++ d :: a.reverse ++ c :: acc) rest3
        else none
      | (_, []) => none
    else if c = rbraceC then some ((c :: acc).reverse, rest)
    else none

/-- Anchored match of pattern 3, `(\{[^{}]*(?:\{[^{}]*\}[^{}]*)*\})`:
a braced region with at most one level of nesting. -/
def matchBraceAt (fuel : Nat) (cs : List Char) : Option (List Char × List Char) :=
  match cs with
  | [] => none
  | c :: rest =>
    if c = lbraceC then
      match takeNonBrace rest with
      | (a, rest1) =>
        match braceIters fuel [] rest1 with
        | some (tail, after) => some (c :: (a ++ tail), after)
        | none => none
    else none

/-- Model of `re.findall(brace-pattern, content)`. -/
def findBraces : Nat → List Char → List (List Char)
  | 0, _ => []
  | fuel + 1, cs =>
    match matchBraceAt (fuel + 1) cs with
    | some (g, after) => g :: findBraces fuel after
    | none =>
      match cs with
      | [] => []
      | _ :: rest => findBraces fuel rest

/-- Lines 43-49 of `_extract_json`: try `json.loads(match.strip())` on each
candidate in order; the first success wins. -/
def firstParse : List (List Char) → Option JValue
  | [] => none
  | g :: gs =>
    match json_loads (pyStrip (String.mk g)) with
    | some v => some v
    | none => firstParse gs

/-- Model of `_extract_json` (llm_router.py lines 24-52): empty input
short-circuits; then direct `json.loads` of the stripped content; then the
three regex fallbacks in order; finally the wrapped-response fallback.
Whatever `json.loads` returns — dict or not — is returned as-is. -/
def extract_json (content : String) : JValue :=
  if content = "" then .jobj [("error", .jstr "Empty response from model")]
  else
    let c := pyStrip content
    match json_loads c with
    | some v => v
    | none =>
      let cs := c.toList
      let fuel := cs.length + 1
      let candidates :=
        findFences ['j', 's', 'o', 'n'] fuel cs ++ findFences [] fuel cs ++
          findBraces fuel cs
      match firstParse candidates with
      | some v => v
      | none => .jobj [("response", .jstr c), ("error", .jstr "Could not parse as JSON")]

/-! ## Response cache (`src/utils/api_optimizer.py`, class `APIOptimizer`) -/

/-- Envelope written to a cache file by `cache_result` (lines 64-68):
`{'timestamp': ..., 'result': ..., 'email_length': ...}`.  The JSON
(de)serialisation of this envelope through `json.dump`/`json.load` is the
identity on the model's structured values, and the ISO-format timestamp
string round trip is modelled by carrying the time itself. -/
structure CachedData where
  timestamp : Nat
  result : JValue
  email_length : Nat

/-- Backing store of the cache: an association from file paths to the parsed
contents of the file at that path. -/
def CacheFS : Type := List (String × CachedData)

/-- Model of `os.path.exists` + `json.load` on a cache path. -/
def fsLookup (fs : CacheFS) (path : String) : Option CachedData :=
  List.lookup path fs

/-- Model of `os.remove`. -/
def fsErase (fs : CacheFS) (path : String) : CacheFS :=
  List.filter (fun e => decide (e.1 ≠ path)) fs

/-- Model of `open(path, 'w')` + `json.dump`: the file now holds exactly the
new contents. -/
def fsWrite (fs : CacheFS) (path : String) (d : CachedData) : CacheFS :=
  (path, d) :: fsErase fs path

/-- Model of `_get_cache_key` (lines 24-27):
`f"{analysis_type}_{md5(email_content.encode()).hexdigest()}"`.  The md5 hex
digest is modelled by the content string itself: every claim depends only on
the key being a fixed deterministic function of the content, never on the
digest algorithm. -/
def getCacheKey (email_content analysis_type : String) : String :=
  analysis_type ++ "_" ++ email_content

/-- Model of `_get_cache_path` (lines 29-31): `os.path.join(cache_dir, key + ".json")`. -/
def getCachePath (cache_dir cache_key : String) : String :=
  cache_dir ++ "/" ++ cache_key ++ ".json"

/-- Configuration of an `APIOptimizer` (lines 17-22): cache directory and
TTL.  `timedelta(hours=2)` is 7200 seconds. -/
structure APIOptimizer where
  cache_dir : String
  cache_duration : Nat

/-- The module-level `api_optimizer = APIOptimizer()` instance. -/
def APIOptimizer.default : APIOptimizer := ⟨"data/cache", 7200⟩

/-- Model of `get_cached_result` (lines 33-56): a missing file is a miss; an
entry older than `cache_duration` is deleted and is a miss; otherwise the
stored `result` is returned.  (`datetime.now() - cached_time >
cache_duration` over integer seconds is `cache_duration < now - timestamp`;
the `except` arm that turns storage errors into misses is unreachable in the
structured store model.) -/
def APIOptimizer.get_cached_result (opt : APIOptimizer) (fs : CacheFS) (now : Nat)
    (email_content analysis_type : String) : Option JValue × CacheFS :=
  let path := getCachePath opt.cache_dir (getCacheKey email_content analysis_type)
  match fsLookup fs path with
  | none => (none, fs)
  | some cd =>
    if opt.cache_duration < now - cd.timestamp then
      (none, fsErase fs path)
    else
      (some cd.result, fs)

/-- Model of `cache_result` (lines 58-76): write the envelope to the cache
path (best-effort; the `except` arm is unreachable in the model). -/
def APIOptimizer.cache_result (opt : APIOptimizer) (fs : CacheFS) (now : Nat)
    (email_content : String) (result : JValue) (analysis_type : String) : CacheFS :=
  let path := getCachePath opt.cache_dir (getCacheKey email_content analysis_type)
  fsWrite fs path ⟨now, result, email_content.length⟩

/-! ## Sentiment analysis service (`src/services/analysis_service.py`) -/

/-- Result dataclass `AnalysisResult` (lines 21-25); latency in whole
seconds. -/
structure AnalysisResult where
  data : JValue
  provider : String
  latency_seconds : Nat

/-- Python truthiness of a JSON value (`if cached:` on line 57): `None`,
`False`, zero, and empty strings/lists/dicts are falsy. -/
def JValue.pyTruthy : JValue → Bool
  | .jnull => false
  | .jbool b => b
  | .jnum m _ => decide (m ≠ 0)
  | .jstr s => decide (s ≠ "")
  | .jarr xs => !xs.isEmpty
  | .jobj fields => !fields.isEmpty

/-- Python `dict.get(k, default)`.  A dict built from a key/value list keeps
the last binding of a duplicated key, hence the reversed lookup. -/
def jsonGetD (fields : List (String × JValue)) (k : String) (d : JValue) : JValue :=
  match List.lookup k fields.reverse with
  | some v => v
  | none => d

/-- Model of the cache key payload of `analyze` (lines 45-52):
`json.dumps({"subject":…, "sender":…, "content":…}, sort_keys=True)`, the
keys in sorted order.  String escaping is immaterial — the payload is only
ever used as an opaque cache key — so quotes are attached directly. -/
def sentimentCacheKeyPayload (subject sender content : String) : String :=
  "\x7b\"content\": \"" ++ content ++ "\", \"sender\": \"" ++ sender ++
    "\", \"subject\": \"" ++ subject ++ "\"\x7d"

/-- Prompt built by `analyze` (lines 60-76), abbreviated to its interpolated
skeleton; no routing decision depends on the prompt text. -/
def sentimentPrompt (subject sender content : String) : String :=
  "Evaluate the following inbound email for sales prioritisation. " ++
    "Subject: " ++ subject ++ "\nSender: " ++ sender ++ "\nBody:\n" ++ content

/-- Construction of `formatted_data` (lines 89-100) from the router's
response.  Python evaluates `ai_response.get(...)`, which raises
`AttributeError` when the router returned a non-dict JSON value; that
failure is `none` here. -/
def formattedData (ai : JValue) : Option JValue :=
  match ai with
  | .jobj fields => some (.jobj
      [("sentiment", jsonGetD fields "sentiment_label" (.jstr "neutral")),
       ("buying_intent", jsonGetD fields "buyer_intent" (.jstr "low")),
       ("urgency", jsonGetD fields "urgency" (.jstr "low")),
       ("priority_score", jsonGetD fields "priority_score" (.int 50)),
       ("confidence", jsonGetD fields "sentiment_confidence" (.jnum 5 (-1))),
       ("intent_probability", jsonGetD fields "intent_probability" (.jnum 3 (-1))),
       ("key_insights", jsonGetD fields "key_signals" (.jarr [.jstr "Analysis completed"])),
       ("recommendations", jsonGetD fields "recommended_actions" (.jarr [.jstr "Review email content"])),
       ("summary", jsonGetD fields "summary" (.jstr "Email analysis completed")),
       ("raw_analysis", ai)])
  | _ => none

/-- Remote branch of `analyze` (lines 60-105): call the router, format the
response, cache it, return `provider = "ai"`.  Note that the
`DISABLE_CACHE` check on line 55 guards only the lookup: the
`cache_result` call on line 102 is unconditional. -/
def analyzeRemote (router : LLMRouter) (opt : APIOptimizer) (fs1 : CacheFS)
    (now latency : Nat) (payload subject sender email_content : String) :
    Except String (AnalysisResult × CacheFS) :=
  match router.complete (sentimentPrompt subject sender email_content) with
  | .error e => .error e
  | .ok ai =>
    match formattedData ai with
    | none => .error "AttributeError: object has no attribute get"
    | some fd =>
      .ok (⟨fd, "ai", latency⟩, opt.cache_result fs1 now payload fd "sentiment_ai")

/-- Model of `SentimentAnalysisService.analyze` (lines 38-105).
`disableCache` is `os.getenv("DISABLE_CACHE")` truthiness; `fs` the cache
backing store; `now` the clock; `latency` the elapsed time of the router
call.  A `.error` result models an exception propagating to the caller. -/
def SentimentAnalysisService.analyze (disableCache : Bool) (router : LLMRouter)
    (opt : APIOptimizer) (fs : CacheFS) (now latency : Nat)
    (subject sender email_content : String) :
    Except String (AnalysisResult × CacheFS) :=
  let payload := sentimentCacheKeyPayload subject sender email_content
  match (if disableCache then (none, fs)
         else opt.get_cached_result fs now payload "sentiment_ai") with
  | (cached, fs1) =>
    match cached with
    | some c =>
      if c.pyTruthy then .ok (⟨c, "cache", 0⟩, fs1)
      else analyzeRemote router opt fs1 now latency payload subject sender email_content
    | none => analyzeRemote router opt fs1 now latency payload subject sender email_content

/-! ## Helper lemmas: stable insertion sort of providers -/

theorem mem_insertByPriority {p x : Provider} {l : List Provider}
    (h : x ∈ insertByPriority p l) : x = p ∨ x ∈ l := by
  induction l with
  | nil => simpa [insertByPriority] using h
  | cons q qs ih =>
    simp only [insertByPriority] at h
    split at h
    · rcases List.mem_cons.mp h with h | h
      · exact Or.inr (List.mem_cons.mpr (Or.inl h))
      · rcases ih h with h | h
        · exact Or.inl h
        · exact Or.inr (List.mem_cons.mpr (Or.inr h))
    · rcases List.mem_cons.mp h with h | h
      · exact Or.inl h
      · exact Or.inr h

theorem pairwise_insertByPriority {p : Provider} {l : List Provider}
    (h : l.Pairwise (fun a b => a.priority ≤ b.priority)) :
    (insertByPriority p l).Pairwise (fun a b => a.priority ≤ b.priority) := by
  induction l with
  | nil => simp [insertByPriority]
  | cons q qs ih =>
    rcases List.pairwise_cons.mp h with ⟨hq, hqs⟩
    by_cases hlt : q.priority < p.priority
    · simp only [insertByPriority, if_pos hlt]
      refine List.pairwise_cons.mpr ⟨?_, ih hqs⟩
      intro x hx
      rcases mem_insertByPriority hx with rfl | hx
      · exact le_of_lt hlt
      · exact hq x hx
    · simp only [insertByPriority, if_neg hlt]
      refine List.pairwise_cons.mpr ⟨?_, h⟩
      intro x hx
      rcases List.mem_cons.mp hx with rfl | hx
      · exact le_of_not_lt hlt
      · exact le_trans (le_of_not_lt hlt) (hq x hx)

theorem pairwise_sortByPriority (l : List Provider) :
    (sortByPriority l).Pairwise (fun a b => a.priority ≤ b.priority) := by
  induction l with
  | nil => simp [sortByPriority]
  | cons p ps ih => exact pairwise_insertByPriority ih

theorem filter_insertByPriority (p : Provider) (l : List Provider) (k : Int) :
    (insertByPriority p l).filter (fun q => decide (q.priority = k)) =
      if p.priority = k then p :: l.filter (fun q => decide (q.priority = k))
      else l.filter (fun q => decide (q.priority = k)) := by
  induction l with
  | nil => by_cases h : p.priority = k <;> simp [insertByPriority, h]
  | cons q qs ih =>
    by_cases hlt : q.priority < p.priority
    · have hne : ¬(p.priority = k ∧ q.priority = k) := by
        rintro ⟨h1, h2⟩; rw [h1, h2] at hlt; exact lt_irrefl _ hlt
      simp only [insertByPriority, if_pos hlt]
      by_cases hq : q.priority = k
      · have hp : ¬p.priority = k := fun hp => hne ⟨hp, hq⟩
        simp [List.filter, hq, hp, ih]
      · by_cases hp : p.priority = k <;> simp [List.filter, hq, hp, ih]
    · simp only [insertByPriority, if_neg hlt]
      by_cases hp : p.priority = k <;> by_cases hq : q.priority = k <;>
        simp [List.filter, hp, hq]

theorem filter_sortByPriority (l : List Provider) (k : Int) :
    (sortByPriority l).filter (fun q => decide (q.priority = k)) =
      l.filter (fun q => decide (q.priority = k)) := by
  induction l with
  | nil => rfl
  | cons p ps ih =>
    simp only [sortByPriority, filter_insertByPriority, ih]
    by_cases h : p.priority = k <;> simp [List.filter, h]

/-! ## Helper lemmas: the router's provider loop -/

theorem completeAux_first_ok (prompt : String) (p : Provider) (v : JValue)
    (hp : p.behavior prompt = Except.ok v) :
    ∀ (pre : List Provider) (post : List Provider) (last : Option String),
      (∀ q ∈ pre, ∃ e, q.behavior prompt = Except.error e) →
      (completeAux prompt (pre ++ p :: post) last).1 = Except.ok v := by
  intro pre
  induction pre with
  | nil => intro post last _; simp [completeAux, hp]
  | cons q qs ih =>
    intro post last hfail
    obtain ⟨e, he⟩ := hfail q (by simp)
    simp only [List.cons_append, completeAux, he]
    exact ih post _ (fun r hr => hfail r (List.mem_cons_of_mem _ hr))

theorem provider_msg_ne_empty (n t : String) : n ++ ": " ++ t ≠ "" := by
  intro h
  have hl := congrArg String.length h
  rw [String.length_append, String.length_append] at hl
  have h2 : (": " : String).length = 2 := rfl
  have h0 : ("" : String).length = 0 := rfl
  omega

theorem completeAux_all_fail (prompt : String) :
    ∀ (l : List Provider) (last : Option String), l ≠ [] →
      (∀ p ∈ l, ∃ e, p.behavior prompt = Except.error e) →
      ∃ p e, l.getLast? = some p ∧ p.behavior prompt = Except.error e ∧
        (completeAux prompt l last).1 = Except.error (p.name ++ ": " ++ e.text) := by
  intro l
  induction l with
  | nil => simp
  | cons p ps ih =>
    intro last _ hfail
    obtain ⟨e, he⟩ := hfail p (by simp)
    cases ps with
    | nil =>
      refine ⟨p, e, rfl, he, ?_⟩
      simp [completeAux, he, pyOrDefault, provider_msg_ne_empty p.name e.text]
    | cons q qs =>
      obtain ⟨p', e', h1, h2, h3⟩ :=
        ih (some (p.name ++ ": " ++ e.text)) (by simp)
          (fun r hr => hfail r (List.mem_cons_of_mem _ hr))
      refine ⟨p', e', ?_, h2, ?_⟩
      · rw [List.getLast?_cons_cons]; exact h1
      · simp only [completeAux, he]; exact h3

theorem completeAux_some_ok (prompt : String) :
    ∀ (l : List Provider) (last : Option String),
      (∃ p ∈ l, ∃ v, p.behavior prompt = Except.ok v) →
      ∃ v, (completeAux prompt l last).1 = Except.ok v ∧
        ∃ p ∈ l, p.behavior prompt = Except.ok v := by
  intro l
  induction l with
  | nil => rintro last ⟨p, hp, _⟩; simp at hp
  | cons p ps ih =>
    rintro last ⟨q, hq, v, hv⟩
    cases hbe : p.behavior prompt with
    | ok w => exact ⟨w, by simp [completeAux, hbe], p, by simp, hbe⟩
    | error e =>
      rcases List.mem_cons.mp hq with rfl | hq
      · rw [hbe] at hv; exact absurd hv (by simp)
      · obtain ⟨v', h1, p', hp', h2⟩ := ih _ ⟨q, hq, v, hv⟩
        refine ⟨v', ?_, p', List.mem_cons_of_mem _ hp', h2⟩
        simpa [completeAux, hbe] using h1

/-! ## Claim C1 -/

/-- C1: for every non-empty provider list, construction sorts the providers
ascending by priority value with ties keeping discovery order (the filter at
each priority is preserved), and `complete` returns the result of the first
provider (in that order) whose `complete` call succeeds; in particular, for
A (priority 0, always `ProviderRateLimitError`) and B (priority 1, always
succeeding), `complete` returns B's result while the internal `last_error`
holds A's recorded failure at the moment of return. -/
theorem C1_priority_order_first_success :
    (∀ (ps : List Provider) (r : LLMRouter) (prompt : String),
      ps ≠ [] → LLMRouter.init ps = .ok r →
      r.providers.Pairwise (fun a b => a.priority ≤ b.priority) ∧
      (∀ k : Int, r.providers.filter (fun q => decide (q.priority = k)) =
        ps.filter (fun q => decide (q.priority = k))) ∧
      (∀ pre p post v, r.providers = pre ++ p :: post →
        (∀ q ∈ pre, ∃ e, q.behavior prompt = Except.error e) →
        p.behavior prompt = Except.ok v →
        r.complete prompt = Except.ok v)) ∧
    (∃ r, LLMRouter.init
        [⟨"A", 0, fun _ => .error (.rateLimit "rate limited")⟩,
         ⟨"B", 1, fun _ => .ok (.jstr "B-result")⟩] = .ok r ∧
      r.complete "prompt" = .ok (.jstr "B-result") ∧
      completeAux "prompt" r.providers none =
        (.ok (.jstr "B-result"), some "A: rate limited")) := by
  constructor
  · intro ps r prompt hne hinit
    rw [LLMRouter.init, if_neg (by simpa [List.isEmpty_iff] using hne)] at hinit
    have hr : r = ⟨sortByPriority ps⟩ := by
      cases hinit; rfl
    subst hr
    refine ⟨pairwise_sortByPriority ps, fun k => filter_sortByPriority ps k, ?_⟩
    intro pre p post v hsplit hfail hok
    show (completeAux prompt (sortByPriority ps) none).1 = Except.ok v
    rw [show sortByPriority ps = pre ++ p :: post from hsplit]
    exact completeAux_first_ok prompt p v hok pre post none hfail
  · exact ⟨_, rfl, rfl, rfl⟩

/-- C1 witness: a concrete single-provider router, its provider succeeding,
returns that provider's result. -/
theorem C1_priority_order_first_success_witness :
    LLMRouter.complete ⟨[⟨"X", 5, fun _ => .ok .jnull⟩]⟩ "q" = .ok .jnull := by
  exact (C1_priority_order_first_success.1 [⟨"X", 5, fun _ => .ok .jnull⟩]
    ⟨[⟨"X", 5, fun _ => .ok .jnull⟩]⟩ "q" (by simp) rfl).2.2
    [] ⟨"X", 5, fun _ => .ok .jnull⟩ [] .jnull rfl (by simp) rfl

/-! ## Claim C2 -/

/-- C2: if every configured provider fails, `complete` raises a
`RuntimeError` whose message is the recorded failure of the last provider
tried (`f"{name}: {exc}"`); and whenever at least one provider succeeds,
`complete` returns a successful provider's result, so no provider-level
error reaches the caller. -/
theorem C2_exhaustion_last_error (r : LLMRouter) (prompt : String) :
    (r.providers ≠ [] →
      (∀ p ∈ r.providers, ∃ e, p.behavior prompt = Except.error e) →
      ∃ p e, r.providers.getLast? = some p ∧ p.behavior prompt = Except.error e ∧
        r.complete prompt = Except.error (p.name ++ ": " ++ e.text)) ∧
    ((∃ p ∈ r.providers, ∃ v, p.behavior prompt = Except.ok v) →
      ∃ v, r.complete prompt = Except.ok v ∧
        ∃ p ∈ r.providers, p.behavior prompt = Except.ok v) := by
  constructor
  · intro hne hfail
    obtain ⟨p, e, h1, h2, h3⟩ := completeAux_all_fail prompt r.providers none hne hfail
    exact ⟨p, e, h1, h2, h3⟩
  · intro hex
    obtain ⟨v, h1, p, hp, h2⟩ := completeAux_some_ok prompt r.providers none hex
    exact ⟨v, h1, p, hp, h2⟩

/-- C2 witness: two always-failing providers; `complete` raises with the
last provider's recorded error text. -/
theorem C2_exhaustion_last_error_witness :
    ∃ p e, List.getLast? [⟨"A", 0, fun _ => .error (.rateLimit "r1")⟩,
        (⟨"B", 1, fun _ => .error (.providerFailed "boom")⟩ : Provider)] = some p ∧
      p.behavior "p" = Except.error e ∧
      LLMRouter.complete ⟨[⟨"A", 0, fun _ => .error (.rateLimit "r1")⟩,
        ⟨"B", 1, fun _ => .error (.providerFailed "boom")⟩]⟩ "p" =
        Except.error (p.name ++ ": " ++ e.text) := by
  exact (C2_exhaustion_last_error ⟨[⟨"A", 0, fun _ => .error (.rateLimit "r1")⟩,
      ⟨"B", 1, fun _ => .error (.providerFailed "boom")⟩]⟩ "p").1 (by simp)
    (by
      intro p hp
      rcases List.mem_cons.mp hp with rfl | hp
      · exact ⟨.rateLimit "r1", rfl⟩
      · rcases List.mem_cons.mp hp with rfl | hp
        · exact ⟨.providerFailed "boom", rfl⟩
        · simp at hp)

/-! ## Helper lemmas: cache backing store -/

theorem fsLookup_fsWrite_self (fs : CacheFS) (p : String) (d : CachedData) :
    fsLookup (fsWrite fs p d) p = some d := by
  simp [fsLookup, fsWrite, List.lookup]

theorem fsLookup_fsErase_self (fs : CacheFS) (p : String) :
    fsLookup (fsErase fs p) p = none := by
  induction fs with
  | nil => rfl
  | cons e es ih =>
    obtain ⟨k, v⟩ := e
    by_cases h : k = p
    · have h1 : fsErase ((k, v) :: es) p = fsErase es p := by
        simp [fsErase, List.filter_cons, h]
      rw [h1]; exact ih
    · have h1 : fsErase ((k, v) :: es) p = (k, v) :: fsErase es p := by
        simp [fsErase, List.filter_cons, h]
      rw [h1]
      have hne : (p == k) = false := by
        simp only [beq_eq_false_iff_ne, ne_eq]
        exact fun hh => h hh.symm
      simp only [fsLookup, List.lookup, hne]
      exact ih

/-! ## Claim C7 -/

/-- C7: `cache_result` followed by `get_cached_result` for the same content
and analysis type returns the stored payload unchanged while at most the TTL
has elapsed (in particular for strictly less); once strictly more than the
TTL has elapsed, the lookup is a miss and the expired entry is removed from
the backing store. -/
theorem C7_cache_roundtrip_ttl (opt : APIOptimizer) (fs : CacheFS)
    (tStore tRead : Nat) (content atype : String) (v : JValue) :
    (tRead - tStore ≤ opt.cache_duration →
      (opt.get_cached_result (opt.cache_result fs tStore content v atype)
        tRead content atype).1 = some v) ∧
    (opt.cache_duration < tRead - tStore →
      (opt.get_cached_result (opt.cache_result fs tStore content v atype)
        tRead content atype).1 = none ∧
      fsLookup (opt.get_cached_result (opt.cache_result fs tStore content v atype)
          tRead content atype).2
        (getCachePath opt.cache_dir (getCacheKey content atype)) = none) := by
  constructor
  · intro hle
    simp [APIOptimizer.get_cached_result, APIOptimizer.cache_result,
      fsLookup_fsWrite_self, Nat.not_lt.mpr hle]
  · intro hgt
    simp [APIOptimizer.get_cached_result, APIOptimizer.cache_result,
      fsLookup_fsWrite_self, hgt, fsLookup_fsErase_self]

/-- C7 witness: a concrete round trip through the default optimizer
(TTL 7200 s): a read 100 s after the store hits, a read 7201 s after the
store misses. -/
theorem C7_cache_roundtrip_ttl_witness :
    (APIOptimizer.get_cached_result .default
        (APIOptimizer.cache_result .default [] 0 "k" (.jstr "v") "sentiment")
        100 "k" "sentiment").1 = some (.jstr "v") ∧
    (APIOptimizer.get_cached_result .default
        (APIOptimizer.cache_result .default [] 0 "k" (.jstr "v") "sentiment")
        7201 "k" "sentiment").1 = none :=
  ⟨(C7_cache_roundtrip_ttl .default [] 0 100 "k" "sentiment" (.jstr "v")).1 (by decide),
   ((C7_cache_roundtrip_ttl .default [] 0 7201 "k" "sentiment" (.jstr "v")).2 (by decide)).1⟩

/-! ## Helper lemma: the remote branch of `analyze` -/

theorem analyzeRemote_ok (router : LLMRouter) (opt : APIOptimizer) (fs1 : CacheFS)
    (now latency : Nat) (payload subject sender content : String)
    (ar : AnalysisResult) (fs' : CacheFS)
    (h : analyzeRemote router opt fs1 now latency payload subject sender content =
      .ok (ar, fs')) :
    ar.provider = "ai" ∧ ar.latency_seconds = latency ∧
    fs' = opt.cache_result fs1 now payload ar.data "sentiment_ai" := by
  unfold analyzeRemote at h
  split at h
  · exact absurd h (by simp)
  · split at h
    · exact absurd h (by simp)
    · simp only [Except.ok.injEq, Prod.mk.injEq] at h
      obtain ⟨h1, h2⟩ := h
      rw [← h1]
      exact ⟨rfl, rfl, h2.symm⟩

/-! ## Claim C8 (corrected) -/

/-- C8 counterexample: with the `DISABLE_CACHE` flag set, a successful
analysis request still mutates the cache backing store — starting from an
empty store, the store is non-empty afterwards — because `analyze` guards
only the lookup with the flag, not the `cache_result` call. -/
theorem C8_counterexample :
    ∃ ar fs', SentimentAnalysisService.analyze true
        ⟨[⟨"groq", 0, fun _ => .ok (.jobj [("summary", .jstr "s")])⟩]⟩
        .default [] 50 3 "sub" "snd" "body" = .ok (ar, fs') ∧
      fs' ≠ ([] : CacheFS) := by
  refine ⟨_, _, rfl, ?_⟩
  exact fun h => List.noConfusion h

/-- C8 amended: with `DISABLE_CACHE` set, the cache lookup is skipped — the
analysis result is computed independently of the backing store — but the
cache store is not skipped: a successful request still writes the formatted
result through `cache_result`, so the backing store does change. -/
theorem C8_amended_lookup_skipped_store_not (router : LLMRouter) (opt : APIOptimizer)
    (fs fsB : CacheFS) (now latency : Nat) (subject sender content : String) :
    (∀ ar fs', SentimentAnalysisService.analyze true router opt fs now latency
        subject sender content = .ok (ar, fs') →
      ar.provider = "ai" ∧
      fs' = opt.cache_result fs now (sentimentCacheKeyPayload subject sender content)
        ar.data "sentiment_ai") ∧
    (SentimentAnalysisService.analyze true router opt fs now latency
        subject sender content).map (fun p => p.1) =
      (SentimentAnalysisService.analyze true router opt fsB now latency
        subject sender content).map (fun p => p.1) := by
  constructor
  · intro ar fs' h
    simp only [SentimentAnalysisService.analyze, if_true] at h
    obtain ⟨h1, _, h3⟩ := analyzeRemote_ok router opt fs now latency _ subject sender content ar fs' h
    exact ⟨h1, h3⟩
  · simp only [SentimentAnalysisService.analyze, if_true]
    unfold analyzeRemote
    cases hr : router.complete (sentimentPrompt subject sender content) with
    | error e => rfl
    | ok ai =>
      dsimp only
      cases hf : formattedData ai with
      | none => rfl
      | some fd => rfl

/-- C8 amended witness: the concrete run of the counterexample scenario,
through the amended theorem. -/
theorem C8_amended_lookup_skipped_store_not_witness :
    ∀ ar fs', SentimentAnalysisService.analyze true
        ⟨[⟨"groq", 0, fun _ => .ok (.jobj [("summary", .jstr "s")])⟩]⟩
        .default [] 50 3 "sub" "snd" "body" = .ok (ar, fs') →
      ar.provider = "ai" ∧
      fs' = APIOptimizer.cache_result .default [] 50
        (sentimentCacheKeyPayload "sub" "snd" "body") ar.data "sentiment_ai" :=
  (C8_amended_lookup_skipped_store_not
    ⟨[⟨"groq", 0, fun _ => .ok (.jobj [("summary", .jstr "s")])⟩]⟩
    .default [] [] 50 3 "sub" "snd" "body").1

/-! ## Claim C3 (corrected) -/

/-- C3 counterexample: a successful non-cached completion served by the
provider named "groq" is returned with `provider = "ai"`, not the name of
the provider that actually served the request — `analyze` hardcodes the
literal `"ai"` and the router does not report which provider served. -/
theorem C3_counterexample :
    ∃ ar fs', SentimentAnalysisService.analyze false
        ⟨[⟨"groq", 0, fun _ => .ok (.jobj [])⟩]⟩ .default [] 0 1 "s" "e" "b" =
        .ok (ar, fs') ∧ ar.provider = "ai" ∧ ar.provider ≠ "groq" := by
  exact ⟨_, _, rfl, rfl, by decide⟩

/-- C3 amended: on a successful analysis, the provider field is `"cache"`
with latency 0 exactly when the result came from a truthy cache hit with the
cache enabled; every other successful result carries the literal provider
field `"ai"` (not the serving provider's name) and the measured latency. -/
theorem C3_amended_provider_field (disableCache : Bool) (router : LLMRouter)
    (opt : APIOptimizer) (fs : CacheFS) (now latency : Nat)
    (subject sender content : String) :
    ∀ ar fs', SentimentAnalysisService.analyze disableCache router opt fs now latency
        subject sender content = .ok (ar, fs') →
      ((ar.provider = "cache" ∧ ar.latency_seconds = 0) ↔
        (disableCache = false ∧ ∃ c,
          (opt.get_cached_result fs now
            (sentimentCacheKeyPayload subject sender content) "sentiment_ai").1 = some c ∧
          c.pyTruthy = true)) ∧
      (ar.provider ≠ "cache" → ar.provider = "ai" ∧ ar.latency_seconds = latency) := by
  intro ar fs' h
  cases disableCache with
  | true =>
    simp only [SentimentAnalysisService.analyze, if_true] at h
    obtain ⟨h1, h2, _⟩ :=
      analyzeRemote_ok router opt fs now latency _ subject sender content ar fs' h
    refine ⟨⟨?_, ?_⟩, fun _ => ⟨h1, h2⟩⟩
    · rintro ⟨hcp, _⟩; rw [h1] at hcp; exact absurd hcp (by decide)
    · rintro ⟨hfalse, _⟩; exact absurd hfalse (by decide)
  | false =>
    obtain ⟨cached, fs1, hc⟩ :
        ∃ a b, opt.get_cached_result fs now
          (sentimentCacheKeyPayload subject sender content) "sentiment_ai" = (a, b) :=
      ⟨_, _, rfl⟩
    simp only [SentimentAnalysisService.analyze, Bool.false_eq_true, if_false, hc] at h
    rw [hc]
    dsimp only
    cases cached with
    | none =>
      obtain ⟨h1, h2, _⟩ :=
        analyzeRemote_ok router opt fs1 now latency _ subject sender content ar fs' h
      refine ⟨⟨?_, ?_⟩, fun _ => ⟨h1, h2⟩⟩
      · rintro ⟨hcp, _⟩; rw [h1] at hcp; exact absurd hcp (by decide)
      · rintro ⟨_, c, hsome, _⟩; exact Option.noConfusion hsome
    | some c =>
      dsimp only at h
      by_cases ht : c.pyTruthy = true
      · rw [if_pos ht] at h
        simp only [Except.ok.injEq, Prod.mk.injEq] at h
        obtain ⟨h1, _⟩ := h
        rw [← h1]
        exact ⟨⟨fun _ => ⟨rfl, c, rfl, ht⟩, fun _ => ⟨rfl, rfl⟩⟩, fun hne => absurd rfl hne⟩
      · rw [if_neg ht] at h
        obtain ⟨h1, h2, _⟩ :=
          analyzeRemote_ok router opt fs1 now latency _ subject sender content ar fs' h
        refine ⟨⟨?_, ?_⟩, fun _ => ⟨h1, h2⟩⟩
        · rintro ⟨hcp, _⟩; rw [h1] at hcp; exact absurd hcp (by decide)
        · rintro ⟨_, c', hsome, htr⟩
          have hcc : c = c' := Option.some.inj hsome
          rw [← hcc] at htr
          exact absurd htr ht

/-- C3 amended witness: the concrete non-cached run of the counterexample
scenario, through the amended theorem. -/
theorem C3_amended_provider_field_witness :
    (⟨(formattedData (.jobj [])).getD .jnull, "ai", 1⟩ : AnalysisResult).provider = "ai" ∧
    (⟨(formattedData (.jobj [])).getD .jnull, "ai", 1⟩ : AnalysisResult).latency_seconds = 1 :=
  (C3_amended_provider_field false ⟨[⟨"groq", 0, fun _ => .ok (.jobj [])⟩]⟩
    .default [] 0 1 "s" "e" "b"
    ⟨(formattedData (.jobj [])).getD .jnull, "ai", 1⟩ _ rfl).2 (by decide)

/-! ## Claim C4 (code bug) -/

/-- C4: evaluation of `_extract_json` at the failing input `"[1, 2]"`: the
direct `json.loads` path succeeds and its value — a JSON array, not a
string-keyed mapping — is returned unchanged, contradicting both the claim
and the function's own `Dict[str, Any]` annotation (its callers immediately
invoke `.get` on the result, which would raise `AttributeError` here). -/
theorem C4_extract_json_nonmapping :
    extract_json "[1, 2]" = .jarr [.jnum 1 0, .jnum 2 0] ∧
      ∀ fields, extract_json "[1, 2]" ≠ .jobj fields := by
  refine ⟨rfl, ?_⟩
  intro fields h
  rw [show extract_json "[1, 2]" = .jarr [.jnum 1 0, .jnum 2 0] from rfl] at h
  exact JValue.noConfusion h

/-! ## Helper lemmas: rate limiter single check -/

theorem nat_min?_mem {l : List Nat} {a : Nat} (h : l.min? = some a) : a ∈ l :=
  List.min?_mem (fun x y => min_choice x y) h

theorem resetDaily_fields (rl : GroqRateLimiter) (now : Nat) :
    (rl.resetDaily now).calls_per_minute = rl.calls_per_minute ∧
    (rl.resetDaily now).calls_per_day = rl.calls_per_day ∧
    (rl.resetDaily now).call_times = rl.call_times ∧
    (((rl.resetDaily now).daily_calls = rl.daily_calls ∧
        (rl.resetDaily now).last_reset = rl.last_reset) ∨
      ((rl.resetDaily now).daily_calls = 0 ∧
        dayOf rl.last_reset < dayOf (rl.resetDaily now).last_reset)) := by
  unfold GroqRateLimiter.resetDaily
  split
  · next hlt => exact ⟨rfl, rfl, rfl, Or.inr ⟨rfl, hlt⟩⟩
  · exact ⟨rfl, rfl, rfl, Or.inl ⟨rfl, rfl⟩⟩

theorem pruneTimes_mem_bound {l : List Nat} {t now : Nat}
    (h : t ∈ pruneTimes l now) : now < t + 60 := by
  have := (List.mem_filter.mp h).2
  exact of_decide_eq_true this

theorem pruneTimes_pruneTimes (l : List Nat) (a b : Nat) (hab : a ≤ b) :
    pruneTimes (pruneTimes l a) b = pruneTimes l b := by
  unfold pruneTimes
  rw [List.filter_filter]
  apply List.filter_congr
  intro t _
  by_cases hb : b < t + 60
  · simp [hb, show a < t + 60 by omega]
  · simp [hb]

/-- Outcome analysis of one `can_make_call` body: field preservation, the
daily-reset alternative, the shape of the pruned state, and the exact facts
of the admitted and wait branches. -/
theorem can_make_call_out (rl rl1 : GroqRateLimiter) (now : Nat) (b : Bool) (m : CheckMsg)
    (h : rl.can_make_call now = ((b, m), rl1)) :
    rl1.calls_per_minute = rl.calls_per_minute ∧
    rl1.calls_per_day = rl.calls_per_day ∧
    ((rl1.daily_calls = rl.daily_calls ∧ rl1.last_reset = rl.last_reset) ∨
      (rl1.daily_calls = 0 ∧ dayOf rl.last_reset < dayOf rl1.last_reset)) ∧
    (rl1.call_times = rl.call_times ∨ rl1.call_times = pruneTimes rl.call_times now) ∧
    (b = true → rl1.call_times = pruneTimes rl.call_times now ∧
      rl1.call_times.length < rl.calls_per_minute) ∧
    (∀ w, m = .waitFor w → rl1.call_times = pruneTimes rl.call_times now ∧
      rl.calls_per_minute ≤ rl1.call_times.length ∧
      ∃ oldest, rl1.call_times.min? = some oldest ∧ now < oldest + 60 ∧
        w = oldest + 60 - now) := by
  obtain ⟨f1, f2, f3, f4⟩ := resetDaily_fields rl now
  simp only [GroqRateLimiter.can_make_call] at h
  rw [f3] at h
  split at h
  next hdaily =>
    simp only [Prod.mk.injEq] at h
    obtain ⟨⟨hb, hm⟩, hrl⟩ := h
    subst hb; subst hm; subst hrl
    refine ⟨f1, f2, f4, Or.inl f3, ?_, ?_⟩
    · intro hcontra; exact absurd hcontra (by decide)
    · intro w hcontra; exact CheckMsg.noConfusion hcontra
  next hdaily =>
    split at h
    next hfull =>
      split at h
      next oldest hmin =>
        simp only [Prod.mk.injEq] at h
        obtain ⟨⟨hb, hm⟩, hrl⟩ := h
        subst hb; subst hm; subst hrl
        refine ⟨f1, f2, f4, Or.inr rfl, ?_, ?_⟩
        · intro hcontra; exact absurd hcontra (by decide)
        · intro w hw
          cases hw
          refine ⟨rfl, ?_, oldest, hmin, ?_, rfl⟩
          · rw [← f1]; exact hfull
          · exact pruneTimes_mem_bound (nat_min?_mem hmin)
      next hmin =>
        simp only [Prod.mk.injEq] at h
        obtain ⟨⟨hb, hm⟩, hrl⟩ := h
        subst hb; subst hm; subst hrl
        refine ⟨f1, f2, f4, Or.inr rfl, ?_, ?_⟩
        · intro hcontra; exact absurd hcontra (by decide)
        · intro w hcontra; exact CheckMsg.noConfusion hcontra
    next hfull =>
      simp only [Prod.mk.injEq] at h
      obtain ⟨⟨hb, hm⟩, hrl⟩ := h
      subst hb; subst hm; subst hrl
      refine ⟨f1, f2, f4, Or.inr rfl, ?_, ?_⟩
      · intro _
        refine ⟨rfl, ?_⟩
        have hfull' :
            ¬((rl.resetDaily now).calls_per_minute ≤ (pruneTimes rl.call_times now).length) :=
          hfull
        show (pruneTimes rl.call_times now).length < rl.calls_per_minute
        omega
      · intro w hcontra; exact CheckMsg.noConfusion hcontra

/-! ## Claim C6 -/

/-- C6: whenever the daily counter has reached `calls_per_day` on the
current day, the next `wait_if_needed` call raises the daily-quota exception
immediately — at its entry time, with no sleep, for every fuel — leaving the
state unchanged; in particular, with `calls_per_day = 2`, after two
admissions in one day the third attempt fails without blocking. -/
theorem C6_daily_quota_fails_fast :
    (∀ (fuel : Nat) (rl : GroqRateLimiter) (now : Nat),
      dayOf now ≤ dayOf rl.last_reset →
      rl.calls_per_day ≤ rl.daily_calls →
      GroqRateLimiter.wait_if_needed (fuel + 1) rl now =
        some (.raised (.dailyLimit rl.calls_per_day) rl now)) ∧
    (runSeq 5 (GroqRateLimiter.init 60 2 0) 0 [0, 0] =
        some (⟨60, 2, [0, 0], 2, 0⟩, 0) ∧
      GroqRateLimiter.wait_if_needed 5 ⟨60, 2, [0, 0], 2, 0⟩ 0 =
        some (.raised (.dailyLimit 2) ⟨60, 2, [0, 0], 2, 0⟩ 0)) := by
  constructor
  · intro fuel rl now hday hq
    have hreset : rl.resetDaily now = rl := by
      unfold GroqRateLimiter.resetDaily
      rw [if_neg (by omega)]
    have hc : rl.can_make_call now = ((false, .dailyLimit rl.calls_per_day), rl) := by
      simp only [GroqRateLimiter.can_make_call, hreset]
      rw [if_pos hq]
    rw [GroqRateLimiter.wait_if_needed, hc]
  · exact ⟨rfl, rfl⟩

/-- C6 witness: a limiter whose daily counter (2) has reached a daily quota
of 2 rejects the next attempt at its entry time 100, state untouched. -/
theorem C6_daily_quota_fails_fast_witness :
    GroqRateLimiter.wait_if_needed (3 + 1) ⟨60, 2, [], 2, 100⟩ 100 =
      some (.raised (.dailyLimit 2) ⟨60, 2, [], 2, 100⟩ 100) :=
  C6_daily_quota_fails_fast.1 3 ⟨60, 2, [], 2, 100⟩ 100 (by decide) (by decide)

/-! ## Claim C10 -/

/-- C10: a `wait_if_needed` attempt that fails with an exception consumes no
slot: `record_call` never ran, so no timestamp was appended (the final
timestamps are the original ones, at most pruned of entries older than 60
seconds at some check instant) and the daily counter was not incremented
(it is unchanged, or 0 after the once-per-day reset); the quota
configuration is untouched and the raise time is not before the entry. -/
theorem C10_failed_admission_no_slot (fuel : Nat) :
    ∀ (rl : GroqRateLimiter) (now : Nat) (m : CheckMsg)
      (rl' : GroqRateLimiter) (t : Nat),
      GroqRateLimiter.wait_if_needed fuel rl now = some (.raised m rl' t) →
      rl'.calls_per_minute = rl.calls_per_minute ∧
      rl'.calls_per_day = rl.calls_per_day ∧
      rl'.call_times.Sublist rl.call_times ∧
      (rl'.call_times = rl.call_times ∨
        ∃ t2, now ≤ t2 ∧ t2 ≤ t ∧ rl'.call_times = pruneTimes rl.call_times t2) ∧
      ((rl'.daily_calls = rl.daily_calls ∧ rl'.last_reset = rl.last_reset) ∨
        (rl'.daily_calls = 0 ∧ dayOf rl.last_reset < dayOf rl'.last_reset)) ∧
      now ≤ t := by
  induction fuel with
  | zero => intro rl now m rl' t h; exact absurd h (by simp [GroqRateLimiter.wait_if_needed])
  | succ fuel ih =>
    intro rl now m rl' t h
    rw [GroqRateLimiter.wait_if_needed] at h
    obtain ⟨bm, rl1, hcm⟩ :
        ∃ a b, rl.can_make_call now = (a, b) := ⟨_, _, rfl⟩
    obtain ⟨b, m0⟩ := bm
    rw [hcm] at h
    obtain ⟨f1, f2, f3, f4, _, f6⟩ := can_make_call_out rl rl1 now b m0 hcm
    cases b with
    | true => simp at h
    | false =>
      have hraise : ∀ m0', m0 = m0' →
          (some (WaitResult.raised m0' rl1 now) =
            some (WaitResult.raised m rl' t)) →
          rl'.calls_per_minute = rl.calls_per_minute ∧
          rl'.calls_per_day = rl.calls_per_day ∧
          rl'.call_times.Sublist rl.call_times ∧
          (rl'.call_times = rl.call_times ∨
            ∃ t2, now ≤ t2 ∧ t2 ≤ t ∧ rl'.call_times = pruneTimes rl.call_times t2) ∧
          ((rl'.daily_calls = rl.daily_calls ∧ rl'.last_reset = rl.last_reset) ∨
            (rl'.daily_calls = 0 ∧ dayOf rl.last_reset < dayOf rl'.last_reset)) ∧
          now ≤ t := by
        intro m0' _ heq
        simp only [Option.some.injEq, WaitResult.raised.injEq] at heq
        obtain ⟨_, hrl, ht⟩ := heq
        rw [← hrl, ← ht]
        refine ⟨f1, f2, ?_, ?_, f3, le_refl now⟩
        · rcases f4 with hsame | hprune
          · exact hsame ▸ List.Sublist.refl _
          · exact hprune ▸ List.filter_sublist rl.call_times
        · rcases f4 with hsame | hprune
          · exact Or.inl hsame
          · exact Or.inr ⟨now, le_refl now, le_refl now, hprune⟩
      cases m0 with
      | waitFor w =>
        obtain ⟨hct, _, _⟩ := f6 w rfl
        obtain ⟨g1, g2, g3, g4, g5, g6⟩ := ih rl1 (now + w + 1) m rl' t h
        refine ⟨g1.trans f1, g2.trans f2, ?_, ?_, ?_, by omega⟩
        · exact g3.trans (hct ▸ List.filter_sublist rl.call_times)
        · rcases g4 with hsame | ⟨t2, ht1, ht2, ht3⟩
          · exact Or.inr ⟨now, le_refl now, by omega, hsame.trans hct⟩
          · refine Or.inr ⟨t2, by omega, ht2, ?_⟩
            rw [ht3, hct, pruneTimes_pruneTimes _ _ _ (by omega)]
        · rcases g5 with ⟨ga, gb⟩ | ⟨ga, gb⟩
          · rcases f3 with ⟨fa, fb⟩ | ⟨fa, fb⟩
            · exact Or.inl ⟨ga.trans fa, gb.trans fb⟩
            · exact Or.inr ⟨ga.trans fa, gb ▸ fb⟩
          · rcases f3 with ⟨fa, fb⟩ | ⟨fa, fb⟩
            · exact Or.inr ⟨ga, fb ▸ gb⟩
            · exact Or.inr ⟨ga, lt_trans fb gb⟩
      | ok => exact hraise .ok rfl h
      | dailyLimit lim => exact hraise (.dailyLimit lim) rfl h
      | valueError => exact hraise .valueError rfl h

/-- C10 witness: the concrete daily-quota rejection of the C6 scenario
consumes no slot. -/
theorem C10_failed_admission_no_slot_witness :
    (⟨60, 2, [], 2, 100⟩ : GroqRateLimiter).call_times.Sublist
        (⟨60, 2, [], 2, 100⟩ : GroqRateLimiter).call_times ∧
      ((⟨60, 2, [], 2, 100⟩ : GroqRateLimiter).daily_calls = 2 ∧ (100 : Nat) ≤ 100) := by
  obtain ⟨_, _, h3, _, h5, h6⟩ :=
    C10_failed_admission_no_slot 4 ⟨60, 2, [], 2, 100⟩ 100 (.dailyLimit 2)
      ⟨60, 2, [], 2, 100⟩ 100 rfl
  rcases h5 with ⟨ha, _⟩ | ⟨ha, _⟩
  · exact ⟨h3, ha, h6⟩
  · exact absurd ha (by decide)

/-! ## Claim C9 (corrected) -/

/-- C9 counterexample: in the code the lock is acquired separately inside
`can_make_call` and inside `record_call`, so the schedule A.check, B.check,
A.record, B.record is a valid execution: B's quota check runs between A's
quota check and A's recording, observes the pre-record state, and with
`calls_per_minute = 1` both callers are admitted (two recorded timestamps).
Under a lock held across the whole check-then-record sequence the serialized
order A.check, A.record, B.check applies instead, and B is denied with a
60-second wait — refuting the claim that no check can interleave. -/
theorem C9_counterexample :
    runSched (GroqRateLimiter.init 1 14400 1000) .toCheck .toCheck 1000
        [true, false, true, false] =
      (⟨1, 14400, [1000, 1000], 2, 1000⟩, .done, .done) ∧
    runSched (GroqRateLimiter.init 1 14400 1000) .toCheck .toCheck 1000
        [true, true, false] =
      (⟨1, 14400, [1000], 1, 1000⟩, .done, .denied (.waitFor 60)) :=
  ⟨rfl, rfl⟩

/-- C9 amended: each of `can_make_call` and `record_call` holds the mutex
only for its own body, so each is individually atomic, but the lock is not
held across the check-then-record sequence of `wait_if_needed`: for every
fresh shared limiter with `calls_per_minute = 1` (any daily quota ≥ 2, any
time), the interleaving A.check, B.check, A.record, B.record is a valid
execution in which caller B's check runs between A's check and A's record,
and both callers are admitted. -/
theorem C9_amended_lock_per_method (cpd t : Nat) (h2 : 2 ≤ cpd) :
    runSched (GroqRateLimiter.init 1 cpd t) .toCheck .toCheck t
        [true, false, true, false] =
      (⟨1, cpd, [t, t], 2, t⟩, .done, .done) := by
  have hcheck : (GroqRateLimiter.init 1 cpd t).can_make_call t =
      ((true, .ok), GroqRateLimiter.init 1 cpd t) := by
    simp only [GroqRateLimiter.can_make_call, GroqRateLimiter.resetDaily,
      GroqRateLimiter.init]
    rw [if_neg (lt_irrefl _), if_neg (show ¬cpd ≤ 0 by omega),
      if_neg (show ¬1 ≤ (pruneTimes [] t).length by simp [pruneTimes])]
    rfl
  have hstepC : threadStep (GroqRateLimiter.init 1 cpd t) .toCheck t =
      (GroqRateLimiter.init 1 cpd t, .toRecord) := by
    simp only [threadStep, hcheck]
  have hstepR1 : threadStep (GroqRateLimiter.init 1 cpd t) .toRecord t =
      (⟨1, cpd, [t], 1, t⟩, .done) := rfl
  have hstepR2 : threadStep (⟨1, cpd, [t], 1, t⟩ : GroqRateLimiter) .toRecord t =
      (⟨1, cpd, [t, t], 2, t⟩, .done) := rfl
  simp only [runSched, hstepC, hstepR1, hstepR2]

/-- C9 amended witness: the concrete interleaved execution with the default
daily quota at time 1000. -/
theorem C9_amended_lock_per_method_witness :
    runSched (GroqRateLimiter.init 1 14400 1000) .toCheck .toCheck 1000
        [true, false, true, false] =
      (⟨1, 14400, [1000, 1000], 2, 1000⟩, .done, .done) :=
  C9_amended_lock_per_method 14400 1000 (by decide)

/-! ## Helper lemmas: the sequential window invariant -/

theorem windowCount_le_length (l : List Nat) (w : Nat) :
    windowCount l w ≤ l.length :=
  List.length_filter_le _ _

theorem windowCount_append (a b : List Nat) (w : Nat) :
    windowCount (a ++ b) w = windowCount a w + windowCount b w := by
  simp [windowCount, List.filter_append]

theorem RLInv_init (cpm cpd t0 : Nat) : RLInv cpm (GroqRateLimiter.init cpm cpd t0) :=
  ⟨rfl, fun w => Nat.zero_le cpm⟩

theorem RLInv_can_make_call {cpm : Nat} {rl rl1 : GroqRateLimiter} {now : Nat}
    {b : Bool} {m : CheckMsg} (h : rl.can_make_call now = ((b, m), rl1))
    (hinv : RLInv cpm rl) : RLInv cpm rl1 := by
  obtain ⟨f1, _, _, f4, _, _⟩ := can_make_call_out rl rl1 now b m h
  refine ⟨f1.trans hinv.1, fun w => ?_⟩
  rcases f4 with hsame | hprune
  · rw [hsame]; exact hinv.2 w
  · rw [hprune]
    exact le_trans ((List.filter_sublist _ |>.filter _).length_le) (hinv.2 w)

theorem RLInv_admit {cpm : Nat} {rl rl1 : GroqRateLimiter} {now : Nat} {m : CheckMsg}
    (h : rl.can_make_call now = ((true, m), rl1)) (hinv : RLInv cpm rl) :
    RLInv cpm (rl1.record_call now) := by
  obtain ⟨f1, _, _, _, f5, _⟩ := can_make_call_out rl rl1 now true m h
  obtain ⟨_, hlen⟩ := f5 rfl
  refine ⟨f1.trans hinv.1, fun w => ?_⟩
  show windowCount (rl1.call_times ++ [now]) w ≤ cpm
  rw [windowCount_append]
  have h1 : windowCount rl1.call_times w ≤ rl1.call_times.length :=
    windowCount_le_length _ _
  have h2 : windowCount [now] w ≤ 1 := windowCount_le_length _ _
  have h3 : rl.calls_per_minute = cpm := hinv.1
  omega

theorem RLInv_wait_if_needed {cpm : Nat} (fuel : Nat) :
    ∀ (rl : GroqRateLimiter) (now : Nat) (res : WaitResult),
      GroqRateLimiter.wait_if_needed fuel rl now = some res → RLInv cpm rl →
      (∀ rl' fin, res = .admitted rl' fin → RLInv cpm rl') ∧
      (∀ m rl' t, res = .raised m rl' t → RLInv cpm rl') := by
  induction fuel with
  | zero =>
    intro rl now res h
    exact absurd h (by simp [GroqRateLimiter.wait_if_needed])
  | succ fuel ih =>
    intro rl now res h hinv
    rw [GroqRateLimiter.wait_if_needed] at h
    obtain ⟨bm, rl1, hcm⟩ : ∃ a b, rl.can_make_call now = (a, b) := ⟨_, _, rfl⟩
    obtain ⟨b, m0⟩ := bm
    rw [hcm] at h
    cases b with
    | true =>
      simp only [Option.some.injEq] at h
      constructor
      · intro rl' fin hres
        rw [← h] at hres
        have : rl1.record_call now = rl' := (WaitResult.admitted.injEq _ _ _ _).mp hres |>.1
        rw [← this]
        exact RLInv_admit hcm hinv
      · intro m rl' t hres
        rw [← h] at hres
        exact absurd hres (by simp)
    | false =>
      have hinv1 : RLInv cpm rl1 := RLInv_can_make_call hcm hinv
      cases m0 with
      | waitFor w => exact ih rl1 (now + w + 1) res h hinv1
      | ok =>
        simp only [Option.some.injEq] at h
        constructor
        · intro rl' fin hres; rw [← h] at hres; exact absurd hres (by simp)
        · intro m rl' t hres
          rw [← h] at hres
          have : rl1 = rl' := ((WaitResult.raised.injEq _ _ _ _ _ _).mp hres).2.1
          rw [← this]; exact hinv1
      | dailyLimit lim =>
        simp only [Option.some.injEq] at h
        constructor
        · intro rl' fin hres; rw [← h] at hres; exact absurd hres (by simp)
        · intro m rl' t hres
          rw [← h] at hres
          have : rl1 = rl' := ((WaitResult.raised.injEq _ _ _ _ _ _).mp hres).2.1
          rw [← this]; exact hinv1
      | valueError =>
        simp only [Option.some.injEq] at h
        constructor
        · intro rl' fin hres; rw [← h] at hres; exact absurd hres (by simp)
        · intro m rl' t hres
          rw [← h] at hres
          have : rl1 = rl' := ((WaitResult.raised.injEq _ _ _ _ _ _).mp hres).2.1
          rw [← this]; exact hinv1

theorem RLInv_runSeq {cpm : Nat} (ds : List Nat) :
    ∀ (fuel : Nat) (rl : GroqRateLimiter) (now : Nat)
      (rl' : GroqRateLimiter) (fin : Nat),
      runSeq fuel rl now ds = some (rl', fin) → RLInv cpm rl → RLInv cpm rl' := by
  induction ds with
  | nil =>
    intro fuel rl now rl' fin h hinv
    simp only [runSeq, Option.some.injEq, Prod.mk.injEq] at h
    rw [← h.1]; exact hinv
  | cons d ds ih =>
    intro fuel rl now rl' fin h hinv
    rw [runSeq] at h
    obtain ⟨res, hres⟩ :
        ∃ r, GroqRateLimiter.wait_if_needed fuel rl (now + d) = r := ⟨_, rfl⟩
    rw [hres] at h
    cases res with
    | none => exact absurd h (by simp)
    | some wres =>
      have hw := RLInv_wait_if_needed fuel rl (now + d) wres hres hinv
      cases wres with
      | admitted rl1 fin1 =>
        exact ih fuel rl1 fin1 rl' fin h (hw.1 rl1 fin1 rfl)
      | raised m rl1 t1 =>
        exact ih fuel rl1 t1 rl' fin h (hw.2 m rl1 t1 rfl)

/-! ## Claim C5 (corrected) -/

/-- C5 counterexample: the claim's window bound quantifies over every
sequence of admissions through the shared limiter, including concurrent
ones; because the quota check and the recording are guarded by separate lock
acquisitions, two concurrent callers can interleave check, check, record,
record, and with `calls_per_minute = 1` both are admitted at time 500 — the
trailing window ending at 500 then holds 2 > 1 admitted timestamps. -/
theorem C5_counterexample :
    runSched (GroqRateLimiter.init 1 14400 500) .toCheck .toCheck 500
        [true, false, true, false] =
      (⟨1, 14400, [500, 500], 2, 500⟩, .done, .done) ∧
    1 < windowCount [500, 500] 500 :=
  ⟨rfl, by decide⟩

/-- C5 amended: for every sequence of non-overlapping (sequentially
executed) admissions from a fresh limiter, at most `calls_per_minute`
admitted timestamps lie in any trailing 60-second window; and an admission
attempt that finds the minute window full is not admitted then, but delayed:
`wait_if_needed` re-checks at `now + wait + 1` (the 1-second buffer) where
`wait = oldest_remaining_timestamp + 60 - now`.  (Concurrent interleavings
can exceed the bound, see the counterexample.) -/
theorem C5_sequential_window_bound :
    (∀ (cpm cpd t0 fuel : Nat) (ds : List Nat) (rl' : GroqRateLimiter) (fin : Nat),
      runSeq fuel (GroqRateLimiter.init cpm cpd t0) t0 ds = some (rl', fin) →
      ∀ w, windowCount rl'.call_times w ≤ cpm) ∧
    (∀ (rl rl1 : GroqRateLimiter) (now w : Nat),
      rl.can_make_call now = ((false, .waitFor w), rl1) →
      (∀ fuel, GroqRateLimiter.wait_if_needed (fuel + 1) rl now =
        GroqRateLimiter.wait_if_needed fuel rl1 (now + w + 1)) ∧
      ∃ oldest, (pruneTimes rl.call_times now).min? = some oldest ∧
        now < oldest + 60 ∧ w = oldest + 60 - now) := by
  constructor
  · intro cpm cpd t0 fuel ds rl' fin h w
    exact (RLInv_runSeq ds fuel (GroqRateLimiter.init cpm cpd t0) t0 rl' fin h
      (RLInv_init cpm cpd t0)).2 w
  · intro rl rl1 now w h
    obtain ⟨_, _, _, _, _, f6⟩ := can_make_call_out rl rl1 now false (.waitFor w) h
    obtain ⟨hct, _, oldest, hmin, hlt, hw⟩ := f6 w rfl
    constructor
    · intro fuel
      rw [GroqRateLimiter.wait_if_needed, h]
    · exact ⟨oldest, hct ▸ hmin, hlt, hw⟩

/-- C5 witness: a concrete sequential trace of two admissions at time 0 with
`calls_per_minute = 2`; the window ending at 0 holds 2 ≤ 2 timestamps. -/
theorem C5_sequential_window_bound_witness :
    windowCount (⟨2, 10, [0, 0], 2, 0⟩ : GroqRateLimiter).call_times 0 ≤ 2 :=
  C5_sequential_window_bound.1 2 10 0 3 [0, 0] ⟨2, 10, [0, 0], 2, 0⟩ 0 rfl 0

end FindLead
